import Mathlib

/-!
Verification of the higher-order function utilities of
`src/08-functions-n-closures-tasks.js`: the memoizing wrapper `memoize`, the
retry wrapper `retry`, the polynomial evaluator `getPolynom`, the id
generator `getIdGeneratorFunction` and the logging wrapper `logger`.

A zero-argument JS producer that may throw is embedded by its observable
behaviour: a map from the invocation index (how many times the producer has
been invoked so far) to the outcome of that invocation, either a returned
value or a thrown exception. The current invocation count is threaded
explicitly through every operation that may invoke the producer, so that
"the producer is invoked exactly n times" is the statement that the counter
advanced by n. Divergence of the retry loop is made observable through an
explicit fuel argument bounding the recursion depth: a result of `none`
means the call has not returned within that depth.
-/

/-- A JavaScript exception value. The payload is an integer tag; it only
serves to keep distinct thrown errors distinguishable, so that propagating
an error unmodified is expressible. -/
inductive JsError where
  | err : Int → JsError

deriving instance DecidableEq for JsError

deriving instance DecidableEq for Except

/-- A zero-argument JS producer, given by the outcome of its n-th
invocation (n counts from 0): a returned value or a thrown exception. -/
abbrev Producer (V : Type) := Nat → Except JsError V

variable {V A R : Type}

/-- One call of the closure returned by `retry(func, attempts)` in the
source. `fuel` bounds the recursion depth (one unit per invocation of a
wrapped closure, i.e. one JS stack frame) and `calls` is the producer
invocation counter. The result is `none` when the fuel runs out before the
call returns — the call has not terminated within that depth — otherwise
`some` of the outcome handed to the caller; pairing with the final counter
records how many producer invocations were made. This mirrors the source
exactly: the `try` block returns `func()` when it succeeds, and the `catch`
block returns `retry(func, attempts - 1)()` on every failure; `attempts` is
decremented but never tested. -/
def retryExec (func : Producer V) (attempts : Int) :
    Nat → Nat → Option (Except JsError V) × Nat
  | 0, calls => (none, calls)
  | fuel + 1, calls =>
    match func calls with
    | Except.ok v => (some (Except.ok v), calls + 1)
    | Except.error _ => retryExec func (attempts - 1) fuel (calls + 1)

/-- The private cache of a memoized wrapper: the one entry
`cash.get(func)` of the `Map` created by `memoize`. -/
structure Memoized (V : Type) where
  cache : V

deriving instance DecidableEq for Memoized

/-- The source `memoize(func)`: it creates the map `cash`, immediately
evaluates `func()` (eagerly, during the `memoize` call itself) and stores
the result, then returns the closure. When `func` throws during that eager
evaluation the exception escapes `memoize` itself and no wrapper is
produced. -/
def memoize (func : Producer V) (calls : Nat) :
    Except JsError (Memoized V × Nat) :=
  match func calls with
  | Except.error e => Except.error e
  | Except.ok v => Except.ok (Memoized.mk v, calls + 1)

/-- One call of the closure returned by `memoize`: it reads the cached
value out of the map and never invokes the producer, so the invocation
counter is unchanged. -/
def Memoized.call (m : Memoized V) (calls : Nat) : V × Nat :=
  (m.cache, calls)

/-- `n` successive calls of a memoized wrapper: the list of values the
calls return, and the producer invocation counter at the end. -/
def memoCallsRun (m : Memoized V) (calls : Nat) : Nat → List V × Nat
  | 0 => ([], calls)
  | n + 1 =>
    let p := Memoized.call m calls
    let r := memoCallsRun m p.2 n
    (p.1 :: r.1, r.2)

/-- The descending loop in the closure returned by `getPolynom`:
`for (let i = arr.length - 1; i >= 0; i -= 1) result += arr[i] * x ** i`.
The first recursion argument is the number of iterations still to run (the
iteration at index `i` corresponds to argument `i + 1`), the second is the
accumulator `result`. -/
def polyLoop (arr : List Int) (x : Int) : Nat → Int → Int
  | 0, result => result
  | i + 1, result => polyLoop arr x i (result + arr.getD i 0 * x ^ i)

/-- The closure returned by `getPolynom(...params)`: the parameter list is
reversed into `arr`, and the loop runs from `i = arr.length - 1` down to
`0` starting from `result = 0`. -/
def getPolynomFn (params : List Int) : Int → Int :=
  fun x => polyLoop params.reverse x params.reverse.length 0

/-- The value `getPolynom(...params)` itself returns. The JS function could
return `null` (encoded `none`) or a closure (encoded `some`); the source
returns the closure unconditionally, whatever `params` is. -/
def getPolynom (params : List Int) : Option (Int → Int) :=
  some (getPolynomFn params)

/-- The polynomial the spec describes: with the coefficient list given
highest degree first, its reversal indexes coefficients by degree, and the
value at `x` is the sum of `coeff_i * x^i`. -/
def polySpecSum (params : List Int) (x : Int) : Int :=
  ∑ i ∈ Finset.range params.length, params.reverse.getD i 0 * x ^ i

/-- The private `result` object captured by the closure that
`getIdGeneratorFunction` returns. -/
structure GenState where
  value : Int
  done : Bool

/-- The source `getIdGeneratorFunction(startFrom)`: it allocates the
private `result` object `{ value: startFrom, done: false }` captured by the
returned closure. -/
def getIdGeneratorFunction (startFrom : Int) : GenState :=
  GenState.mk startFrom false

/-- One call of the generator closure: when `done` is still false (the
first call) it flips `done` and returns the seed unchanged; afterwards it
increments `value` and returns the incremented value. The result is the
produced id together with the updated private state. -/
def genCall (s : GenState) : Int × GenState :=
  if s.done then (s.value + 1, GenState.mk (s.value + 1) s.done)
  else (s.value, GenState.mk s.value true)

/-- The private state of a generator after `n` calls. -/
def genStateN (s : GenState) : Nat → GenState
  | 0 => s
  | n + 1 => (genCall (genStateN s n)).2

/-- The id returned by the `(n + 1)`-st call of a generator whose state is
`s` (`n = 0` is the first call). -/
def genNth (s : GenState) (n : Nat) : Int :=
  (genCall (genStateN s n)).1

/-- The ids returned by the first `n` calls of a generator started in
state `s`, in order. -/
def genOutputs (s : GenState) : Nat → List Int
  | 0 => []
  | n + 1 => (genCall s).1 :: genOutputs (genCall s).2 n

/-- The observation of an interleaved run of two generators: what each one
returned, and each one's final private state. -/
structure InterRun where
  outA : List Int
  outB : List Int
  finA : GenState
  finB : GenState

/-- Interleaved execution of two independently created generators: a
`true` entry of the schedule calls generator A, a `false` entry calls
generator B. Each closure touches only its own captured `result` object. -/
def interRun (sa sb : GenState) : List Bool → InterRun
  | [] => InterRun.mk [] [] sa sb
  | true :: rest =>
    let p := genCall sa
    let r := interRun p.2 sb rest
    InterRun.mk (p.1 :: r.outA) r.outB r.finA r.finB
  | false :: rest =>
    let p := genCall sb
    let r := interRun sa p.2 rest
    InterRun.mk r.outA (p.1 :: r.outB) r.finA r.finB

/-- One call of the closure returned by `logger(func, logFunc)`, on the
argument tuple `params`. `name` stands for `func.name` and `ser params` for
`JSON.stringify(params).slice(1, -1)`; `func` may return a value or throw.
The result pairs what the closure hands back to its caller with the list of
strings passed to `logFunc`, in order: the `starts` line is logged first,
then `func(...params)` runs — when it throws, the exception propagates at
once and the `ends` line is never logged; when it returns, the `ends` line
is logged and the result returned. -/
def logger (name : String) (ser : A → String) (func : A → Except JsError R)
    (params : A) : Except JsError R × List String :=
  let str := ser params
  let startMsg := name ++ "(" ++ str ++ ") starts"
  match func params with
  | Except.error e => (Except.error e, [startMsg])
  | Except.ok result =>
    (Except.ok result, [startMsg, name ++ "(" ++ str ++ ") ends"])

/-- A producer that throws on every invocation. -/
def alwaysFail : Producer Int :=
  fun _ => Except.error (JsError.err 0)

/-- A pure call-counter producer: it returns the number of times it has
been invoked before, and never throws. -/
def tick : Producer Nat :=
  fun n => Except.ok n

/-- A producer that throws on its first invocation and returns `7` from the
second invocation on: it fails exactly once, then succeeds. -/
def failOnceThenOk : Producer Int :=
  fun n => if n = 0 then Except.error (JsError.err 1) else Except.ok 7

/-- The producer fails exactly `k` times and then succeeds with `v`: each
of its first `k` invocations throws, and invocation `k` returns `v`. -/
def FailsKThenSucceeds (func : Producer V) (k : Nat) (v : V) : Prop :=
  (∀ n, n < k → ∃ e, func n = Except.error e) ∧ func k = Except.ok v

/-- With a producer that throws on every invocation, a call of the retry
wrapper never returns within any recursion depth, and every unit of fuel is
spent on one more producer invocation. -/
theorem retryExec_of_allFail (func : Producer V)
    (h : ∀ n, ∃ e, func n = Except.error e) :
    ∀ (fuel : Nat) (attempts : Int) (calls : Nat),
      retryExec func attempts fuel calls = (none, calls + fuel) := by
  intro fuel
  induction fuel with
  | zero => intro attempts calls; simp [retryExec]
  | succ f ih =>
    intro attempts calls
    obtain ⟨e, he⟩ := h calls
    rw [retryExec, he, ih]
    simp only [Prod.mk.injEq, true_and]
    omega

/-- When the producer throws on its first `k` invocations (counting from
`calls`) and returns `v` on invocation `calls + k`, a retry-wrapper call
with at least `k + 1` fuel returns `v` after exactly `k + 1` further
producer invocations, whatever `attempts` is. -/
theorem retryExec_first_success (k : Nat) :
    ∀ (func : Producer V) (v : V) (attempts : Int) (fuel calls : Nat),
      (∀ n, n < k → ∃ e, func (calls + n) = Except.error e) →
      func (calls + k) = Except.ok v →
      k + 1 ≤ fuel →
      retryExec func attempts fuel calls =
        (some (Except.ok v), calls + k + 1) := by
  induction k with
  | zero =>
    intro func v attempts fuel calls _ hk hfuel
    cases fuel with
    | zero => omega
    | succ f =>
      simp only [Nat.add_zero] at hk
      rw [retryExec, hk]
  | succ k ih =>
    intro func v attempts fuel calls hfail hk hfuel
    cases fuel with
    | zero => omega
    | succ f =>
      obtain ⟨e, he⟩ := hfail 0 (Nat.succ_pos k)
      rw [Nat.add_zero] at he
      rw [retryExec, he]
      have hres := ih func v (attempts - 1) f (calls + 1)
        (fun n hn => by
          have := hfail (n + 1) (by omega)
          simpa [Nat.add_assoc, Nat.add_comm 1 n] using this)
        (by
          have : calls + 1 + k = calls + (k + 1) := by omega
          rw [this]; exact hk)
        (by omega)
      rw [hres]
      simp only [Prod.mk.injEq, true_and]
      omega

/-- C1: the spec says that with an always-failing producer,
`retry(producer, attempts)` performs exactly `attempts + 1` producer
invocations and then propagates the failure. The source never consults
`attempts`: at the failing input (`alwaysFail`, `attempts = 0`) the wrapped
call is still running at every recursion depth `fuel`, having made `fuel`
producer invocations — it neither stops after `attempts + 1 = 1`
invocations nor ever hands any outcome, in particular no propagated error,
back to its caller. -/
theorem retry_exhaustion_diverges :
    ∀ fuel : Nat, retryExec alwaysFail 0 fuel 0 = (none, fuel) := by
  intro fuel
  simpa using
    retryExec_of_allFail alwaysFail (fun n => ⟨JsError.err 0, rfl⟩) fuel 0 0

/-- C3: the spec bounds the recursion depth by `maxAttempts` and the
producer invocations per wrapper call by `maxAttempts + 1`. With
`maxAttempts = 5` and an always-failing producer, the source makes `fuel`
producer invocations at every recursion depth `fuel` without terminating —
for `fuel = 100` that is 100 invocations, far beyond the claimed bound of
6, so neither the depth nor the invocation count is bounded by
`maxAttempts`. -/
theorem retry_unbounded_recursion :
    ∀ fuel : Nat, retryExec alwaysFail 5 fuel 0 = (none, fuel) := by
  intro fuel
  simpa using
    retryExec_of_allFail alwaysFail (fun n => ⟨JsError.err 0, rfl⟩) fuel 5 0

/-- C5: for a producer that fails exactly `k` times and then succeeds with
`v`, and any `attempts ≥ k`, a call of the wrapper returned by
`retry(producer, attempts)` returns the success value `v` and the producer
is invoked exactly `k + 1` times (the call completes within any recursion
depth of at least `k + 1`). -/
theorem retry_success_path (func : Producer V) (k : Nat) (v : V)
    (attempts : Int) (fuel : Nat)
    (hfs : FailsKThenSucceeds func k v)
    (hatt : (k : Int) ≤ attempts)
    (hfuel : k + 1 ≤ fuel) :
    retryExec func attempts fuel 0 = (some (Except.ok v), k + 1) := by
  have h := retryExec_first_success k func v attempts fuel 0
    (fun n hn => by simpa using hfs.1 n hn)
    (by simpa using hfs.2) hfuel
  simpa using h

/-- Witness for C5 at a concrete input: `failOnceThenOk` fails exactly once
then returns `7`; with `attempts = 1` (and fuel `2`) the wrapped call
returns `7` after exactly `2` producer invocations. -/
theorem retry_success_path_witness :
    retryExec failOnceThenOk 1 2 0 = (some (Except.ok 7), 1 + 1) :=
  retry_success_path failOnceThenOk 1 7 1 2
    ⟨fun n hn => ⟨JsError.err 1, by
      have hn0 : n = 0 := by omega
      subst hn0; rfl⟩, rfl⟩
    (by norm_num) (by norm_num)

/-- C2 as stated fails on the source: with the pure call-counter producer
`tick`, `memoize(tick)` itself already performs one producer invocation —
the result is the wrapper with `0` cached and the invocation counter at
`1`, although the wrapper has not been called even once. The decidable
check records that the outcome is not the claimed one (counter still `0`
at creation). -/
theorem memoize_not_lazy_cex :
    memoize tick 0 = Except.ok (Memoized.mk 0, 1) ∧
      decide (memoize tick 0 = Except.ok (Memoized.mk 0, 0)) = false :=
  ⟨rfl, by decide⟩

/-- C2 amended: the producer is invoked exactly once, eagerly during the
`memoize(producer)` call itself; the wrapper is created with the returned
value already cached, and a call of the wrapper returns that stored value
without any further producer invocation. -/
theorem memoize_eager_once (func : Producer V) (calls : Nat) (v : V)
    (h : func calls = Except.ok v) :
    memoize func calls = Except.ok (Memoized.mk v, calls + 1) ∧
      Memoized.call (Memoized.mk v) (calls + 1) = (v, calls + 1) := by
  constructor
  · rw [memoize, h]
  · rfl

/-- Witness for the amended C2 at a concrete input: memoizing the counter
producer `tick` caches `0`, advances the counter to `1` at wrap time, and a
wrapper call returns the stored `0` leaving the counter at `1`. -/
theorem memoize_eager_once_witness :
    memoize tick 0 = Except.ok (Memoized.mk 0, 0 + 1) ∧
      Memoized.call (Memoized.mk 0) (0 + 1) = (0, 0 + 1) :=
  memoize_eager_once tick 0 0 rfl

/-- The calls of a memoized wrapper all return the cached value and leave
the producer invocation counter untouched. -/
theorem memoCallsRun_const (v : V) (c : Nat) :
    ∀ n : Nat, memoCallsRun (Memoized.mk v) c n = (List.replicate n v, c) := by
  intro n
  induction n with
  | zero => rfl
  | succ k ih => simp [memoCallsRun, Memoized.call, ih, List.replicate_succ]

/-- C4: over the whole lifetime of one memoized wrapper — its creation plus
`N ≥ 1` wrapper calls — the producer is invoked exactly once in total (the
invocation counter ends at `calls + 1`), and every one of the `N` calls
returns the identical stored value. -/
theorem memoize_idempotence (func : Producer V) (calls : Nat) (v : V)
    (N : Nat) (hN : 1 ≤ N) (h : func calls = Except.ok v) :
    ∃ m : Memoized V, memoize func calls = Except.ok (m, calls + 1) ∧
      memoCallsRun m (calls + 1) N = (List.replicate N v, calls + 1) := by
  refine ⟨Memoized.mk v, ?_, memoCallsRun_const v (calls + 1) N⟩
  rw [memoize, h]

/-- Witness for C4 at a concrete input: memoizing the counter producer
`tick` and calling the wrapper three times returns `0` all three times with
the invocation counter still at `1`. -/
theorem memoize_idempotence_witness :
    ∃ m : Memoized Nat, memoize tick 0 = Except.ok (m, 0 + 1) ∧
      memoCallsRun m (0 + 1) 3 = (List.replicate 3 0, 0 + 1) :=
  memoize_idempotence tick 0 0 3 (by norm_num) rfl

/-- C9: `memoize` invokes the producer eagerly, during the `memoize` call
itself — so when the producer throws, the exception propagates out of
`memoize(func)` unmodified and no wrapper is returned. -/
theorem memoize_eager_propagates (func : Producer V) (calls : Nat)
    (e : JsError) (h : func calls = Except.error e) :
    memoize func calls = Except.error e := by
  rw [memoize, h]

/-- Witness for C9 at a concrete input: memoizing the always-throwing
producer makes `memoize` itself throw that error. -/
theorem memoize_eager_propagates_witness :
    memoize alwaysFail 0 = Except.error (JsError.err 0) :=
  memoize_eager_propagates alwaysFail 0 (JsError.err 0) rfl

/-- C6: the claim (and the source docstring, `getPolynom() => null`) says
the no-argument call returns a null marker. The source returns the closure
unconditionally: at the failing input — no coefficients at all —
`getPolynom` still hands back the closure, which evaluates the empty sum to
`0` on every input, rather than the null marker `none`. -/
theorem getPolynom_empty_is_function :
    getPolynom [] = some (getPolynomFn []) ∧
      ∀ x : Int, getPolynomFn [] x = 0 := by
  exact ⟨rfl, fun x => rfl⟩

/-- Running the descending accumulation loop of `getPolynom` for `n`
iterations adds the degree-indexed sum of the first `n` coefficients to the
accumulator. -/
theorem polyLoop_eq_sum (arr : List Int) (x : Int) :
    ∀ (n : Nat) (r : Int),
      polyLoop arr x n r = r + ∑ i ∈ Finset.range n, arr.getD i 0 * x ^ i := by
  intro n
  induction n with
  | zero => intro r; simp [polyLoop]
  | succ k ih =>
    intro r
    rw [polyLoop, ih, Finset.sum_range_succ]
    ring

/-- C7: the closure returned by `getPolynom` evaluates the polynomial whose
coefficient list is given highest degree first — the value at `x` is the
sum of `coeff_i * x^i` with the reversed list indexed by degree — and in
particular `getPolynom(2, 3, 5)` is the function `x ↦ 2*x^2 + 3*x + 5`. -/
theorem getPolynom_evaluates :
    (∀ (params : List Int) (x : Int),
        getPolynomFn params x = polySpecSum params x) ∧
      ∀ x : Int, getPolynomFn [2, 3, 5] x = 2 * x ^ 2 + 3 * x + 5 := by
  constructor
  · intro params x
    rw [getPolynomFn, polySpecSum, polyLoop_eq_sum, List.length_reverse]
    ring
  · intro x
    rw [getPolynomFn, polyLoop_eq_sum]
    simp [Finset.sum_range_succ]
    ring

/-- After its first call the private state of a generator seeded at `start`
has `done` set and `value = start + n` (with `n` counting the calls past
the first). -/
theorem genStateN_closed (start : Int) :
    ∀ n : Nat, genStateN (getIdGeneratorFunction start) (n + 1) =
      GenState.mk (start + n) true := by
  intro n
  induction n with
  | zero => simp [genStateN, genCall, getIdGeneratorFunction]
  | succ k ih =>
    rw [genStateN, ih]
    simp only [genCall, if_pos]
    congr 1
    push_cast
    ring

/-- The id returned by the `(n + 1)`-st call of a generator seeded at
`start` is `start + n`. -/
theorem genNth_closed (start : Int) :
    ∀ n : Nat, genNth (getIdGeneratorFunction start) n = start + n := by
  intro n
  cases n with
  | zero => simp [genNth, genStateN, genCall, getIdGeneratorFunction]
  | succ k =>
    rw [genNth, genStateN_closed]
    simp only [genCall, if_pos]
    push_cast
    ring

/-- Interleaving two generators changes neither one's outputs: along any
schedule, each generator produces exactly the outputs of its own solo run
of as many calls as the schedule gives it. -/
theorem interRun_outputs :
    ∀ (sched : List Bool) (sa sb : GenState),
      (interRun sa sb sched).outA = genOutputs sa (sched.count true) ∧
        (interRun sa sb sched).outB = genOutputs sb (sched.count false) := by
  intro sched
  induction sched with
  | nil => intro sa sb; simp [interRun, genOutputs]
  | cons b rest ih =>
    intro sa sb
    cases b with
    | true =>
      have hA := (ih (genCall sa).2 sb).1
      have hB := (ih (genCall sa).2 sb).2
      simp [interRun, List.count_cons, genOutputs, hA, hB]
    | false =>
      have hA := (ih sa (genCall sb).2).1
      have hB := (ih sa (genCall sb).2).2
      simp [interRun, List.count_cons, genOutputs, hA, hB]

/-- C8: a generator seeded at `start` returns the seed on its first call
and on every later call returns exactly one more than its previous
returned value (its `n`-th returned id is `start + n`); and two
independently created generators advance independently — under any
interleaving schedule, each produces exactly the outputs of its own solo
run, so neither affects the other's sequence. -/
theorem idGenerator_independent_increments :
    (∀ (start : Int), genNth (getIdGeneratorFunction start) 0 = start ∧
        ∀ n : Nat, genNth (getIdGeneratorFunction start) (n + 1) =
          genNth (getIdGeneratorFunction start) n + 1) ∧
      ∀ (sa sb : GenState) (sched : List Bool),
        (interRun sa sb sched).outA = genOutputs sa (sched.count true) ∧
          (interRun sa sb sched).outB = genOutputs sb (sched.count false) := by
  constructor
  · intro start
    constructor
    · simpa using genNth_closed start 0
    · intro n
      rw [genNth_closed, genNth_closed]
      push_cast
      ring
  · intro sa sb sched
    exact interRun_outputs sched sa sb

/-- C10: when the wrapped function throws, the logging sink receives
exactly one line — the `starts` line, never the `ends` line — and the
exception propagates unmodified to the caller; when the wrapped function
returns normally, the sink receives exactly two lines, the `starts` line
before the call and the `ends` line after it, and the result is returned
unchanged. -/
theorem logger_bracketing (name : String) (ser : A → String)
    (func : A → Except JsError R) (params : A) :
    (∀ e, func params = Except.error e →
        logger name ser func params =
          (Except.error e, [name ++ "(" ++ ser params ++ ") starts"])) ∧
      ∀ r, func params = Except.ok r →
        logger name ser func params =
          (Except.ok r,
            [name ++ "(" ++ ser params ++ ") starts",
              name ++ "(" ++ ser params ++ ") ends"]) := by
  constructor
  · intro e he
    rw [logger, he]
  · intro r hr
    rw [logger, hr]

/-- A wrapped function returning the constant `5`, for instantiating the
logger bracketing claim. -/
def okFive : Unit → Except JsError Int :=
  fun _ => Except.ok 5

/-- Witness for C10 at a concrete input: logging a call of the constant
function named `cos` whose arguments serialize to `3` records the `starts`
and `ends` lines in order around the unchanged result. -/
theorem logger_bracketing_witness :
    logger ("cos") (fun _ => "3") okFive () =
      (Except.ok 5,
        [ ("cos") ++ "(" ++ "3" ++ ") starts",
          ("cos") ++ "(" ++ "3" ++ ") ends"]) :=
  (logger_bracketing ("cos") (fun _ => "3") okFive ()).2 5 rfl
